import Mathlib

/-!
Verification of the sendspin-js receiver core (clock-synchronized audio
streaming client) against its natural-language specification.

The development shallowly embeds the relevant source files:

* `state-manager.ts` — the JSON diff-merge (`applyDiff`), the volume
  clamp, stream anchors and the stream generation counter.
* `protocol-handler.ts` — the receive-side message dispatch for
  `server/state`, `group/update`, `stream/start`, `stream/clear` and
  `stream/end`.
* the audio processor (newest revision, with mode-dependent correction
  thresholds) — `CORRECTION_THRESHOLDS`, `adjustBufferSamples`,
  `cutScheduledSources`, `handleBinaryMessage`'s post-decode generation
  guard, and the scheduling pass `processAudioQueue`.

Modelling conventions:

* JavaScript number arithmetic on times, durations and rates is modelled
  exactly over `ℚ` (the scheduler only adds, subtracts, multiplies,
  divides and compares; no rounding is involved).  Decimal literals from
  the source are written as fractions (`0.2 = 1/5`, `1.02 = 51/50`, …).
* The one place where the special values of IEEE numbers matter to a
  claim (the volume clamp, which receives arbitrary caller input) uses an
  explicit `JSNum` type with `NaN` and the two infinities, and `jsMin` /
  `jsMax` reproduce `Math.min` / `Math.max` including NaN propagation.
* JSON values are the inductive `Json`; a JavaScript object is the
  association list of its own enumerable keys in insertion order
  (`JObject`).  Assigning to an existing key keeps its position,
  assigning to a fresh key appends, `delete` removes it — exactly the JS
  object semantics `applyDiff` relies on.
* The audio sink (`AudioContext`) is represented by the values the pass
  reads from it: `currentTime` and the created buffer sources; a
  scheduled source is recorded as its (start, end) pair, and the events
  of a pass (`source.start` calls and late drops) are returned as an
  explicit event list.
* The time filter source file is not part of the snapshot; the pass only
  consumes `computeClientTime`, `error` and `is_synchronized`, so those
  enter the pass environment as data (a function and two values), as the
  spec describes them.
-/

attribute [local semireducible] Rat.add Rat.mul Rat.inv Rat.sub Rat.ofScientific

namespace Sendspin

/-! ## JSON values and the diff-merge of `state-manager.ts` -/

mutual

/-- A JSON value as handled by the untyped diff-merge. -/
inductive Json where
  | null : Json
  | bool (b : Bool) : Json
  | num (q : ℚ) : Json
  | str (s : String) : Json
  | arr (elems : JArray) : Json
  | obj (fields : JObject) : Json

/-- A JSON array (spine of its elements). -/
inductive JArray where
  | nil : JArray
  | cons (hd : Json) (tl : JArray) : JArray

/-- A JavaScript object: its own enumerable keys in insertion order. -/
inductive JObject where
  | nil : JObject
  | cons (k : String) (v : Json) (tl : JObject) : JObject

end

/-- Read `o[key]` (objects have unique keys, so first match suffices). -/
def getKey : JObject → String → Option Json
  | .nil, _ => none
  | .cons k v tl, key => if k = key then some v else getKey tl key

/-- Assignment `o[key] = value`: an existing key keeps its position, a
fresh key is appended, as for JS objects. -/
def setKey : JObject → String → Json → JObject
  | .nil, key, value => .cons key value .nil
  | .cons k v tl, key, value =>
      if k = key then .cons k value tl else .cons k v (setKey tl key value)

/-- Deletion `delete o[key]`. -/
def delKey : JObject → String → JObject
  | .nil, _ => .nil
  | .cons k v tl, key =>
      if k = key then delKey tl key else .cons k v (delKey tl key)

mutual

/-- The diff-merge of `state-manager.ts` (`applyDiff`): starting from a
copy of `existing`, every key of `diff` is applied in order via
`applyOne`.  Null deletes, an object value over an existing plain object
merges recursively, anything else replaces. -/
def applyDiff : JObject → JObject → JObject
  | existing, .nil => existing
  | existing, .cons k v tl => applyDiff (applyOne existing k v) tl

/-- One key of the diff, mirroring the loop body of `applyDiff` in
`state-manager.ts`: `null` deletes the key; an object value whose
existing counterpart is a plain object (`typeof ... === "object"`, not
`null`, not an array) triggers a recursive merge; any other value
replaces.  Arrays and all scalars replace. -/
def applyOne : JObject → String → Json → JObject
  | existing, k, .null => delKey existing k
  | existing, k, .obj df =>
      match getKey existing k with
      | some (.obj ef) => setKey existing k (.obj (applyDiff ef df))
      | _ => setKey existing k (.obj df)
  | existing, k, v => setKey existing k v

end

/-- The keys of an object, in order. -/
def keysOf : JObject → List String
  | .nil => []
  | .cons k _ tl => k :: keysOf tl

/-- A well-formed JS object carries no duplicate keys. -/
def nodupKeys (o : JObject) : Prop := (keysOf o).Nodup

instance : DecidablePred nodupKeys := fun o => by
  unfold nodupKeys; infer_instance

/-! ## JavaScript numbers for the volume clamp -/

/-- A JavaScript number as far as `Math.min` / `Math.max` can tell:
NaN, the two infinities, or a finite value (modelled exactly). -/
inductive JSNum where
  | nan : JSNum
  | posInf : JSNum
  | negInf : JSNum
  | finite (q : ℚ) : JSNum
deriving DecidableEq

/-- JavaScript `Math.min` on two arguments: NaN propagates, otherwise
the smaller value under the usual extended ordering. -/
def jsMin : JSNum → JSNum → JSNum
  | .nan, _ => .nan
  | _, .nan => .nan
  | .negInf, _ => .negInf
  | _, .negInf => .negInf
  | .posInf, b => b
  | a, .posInf => a
  | .finite a, .finite b => .finite (min a b)

/-- JavaScript `Math.max` on two arguments: NaN propagates, otherwise
the larger value under the usual extended ordering. -/
def jsMax : JSNum → JSNum → JSNum
  | .nan, _ => .nan
  | _, .nan => .nan
  | .posInf, _ => .posInf
  | _, .posInf => .posInf
  | .negInf, b => b
  | a, .negInf => a
  | .finite a, .finite b => .finite (max a b)

/-- The clamped value stored by the `volume` setter of
`state-manager.ts`: `Math.max(0, Math.min(100, value))`. -/
def clampVolume (value : JSNum) : JSNum :=
  jsMax (.finite 0) (jsMin (.finite 100) value)

/-- The stored volume lies in the interval [0, 100] (in particular it is
a finite number). -/
def volumeInRange (v : JSNum) : Prop :=
  ∃ q : ℚ, v = .finite q ∧ 0 ≤ q ∧ q ≤ 100

/-! ## Specification-side merge definitions (for comparison only)

These two definitions are not translated from the source: they spell out
the merge rule exactly as the specification sentence states it
("applied recursively exactly one level deep"), so that the behaviour of
the source `applyDiff` can be compared against it. -/

/-- Leaf-level merge as the spec prescribes for levels deeper than one
below the top: `null` deletes the key, every other value (including an
object) replaces. -/
def replaceOrDelete : JObject → JObject → JObject
  | existing, .nil => existing
  | existing, .cons k .null tl => replaceOrDelete (delKey existing k) tl
  | existing, .cons k v tl => replaceOrDelete (setKey existing k v) tl

/-- One key of the spec-side merge: like the source rule at the top
level, but the nested merge is the non-recursive `replaceOrDelete`. -/
def applyOneSpec (existing : JObject) (k : String) : Json → JObject
  | .null => delKey existing k
  | .obj df =>
      match getKey existing k with
      | some (.obj ef) => setKey existing k (.obj (replaceOrDelete ef df))
      | _ => setKey existing k (.obj df)
  | v => setKey existing k v

/-- The diff-merge as the claim describes it: recursing exactly one
level deep below the top. -/
def applyDiffSpecOneLevel : JObject → JObject → JObject
  | existing, .nil => existing
  | existing, .cons k v tl => applyDiffSpecOneLevel (applyOneSpec existing k v) tl

/-! ## Per-key reading of the source merge

`applyOneLookup` and `mergeLookup` are derived observations used to
state what `applyDiff` computes at an individual key; they are defined
here and proved to characterize `applyDiff` below. -/

/-- What `applyOne existing k v` leaves at key `k`, expressed through
`getKey existing k`. -/
def applyOneLookup (existing : JObject) (k : String) : Json → Option Json
  | .null => none
  | .obj df =>
      match getKey existing k with
      | some (.obj ef) => some (.obj (applyDiff ef df))
      | _ => some (.obj df)
  | v => some v

/-- What the merged object holds at `key`: untouched keys keep their
existing value, a `null` diff entry deletes, an object diff entry over
an existing plain object merges recursively, anything else replaces. -/
def mergeLookup (existing diff : JObject) (key : String) : Option Json :=
  match getKey diff key with
  | none => getKey existing key
  | some dv => applyOneLookup existing key dv

/-! ## State store (`state-manager.ts`) -/

/-- Player state reported to the server. -/
inductive PlayerState where
  | synchronized : PlayerState
  | error : PlayerState
deriving DecidableEq

/-- A stream format as delivered by `stream/start` (payload.player). -/
structure StreamFormat where
  codec : String
  sample_rate : ℚ
  channels : Nat
  bit_depth : Option Nat
  codec_header : Option String
deriving DecidableEq

/-- The fields of `StateManager` that the verified claims touch.  The
interval bookkeeping (timer handles) and the change-notification
callback carry no verifiable state and are omitted. -/
structure ManagedState where
  volume : JSNum
  muted : Bool
  playerState : PlayerState
  isPlaying : Bool
  currentStreamFormat : Option StreamFormat
  streamStartServerTime : ℚ
  streamStartAudioTime : ℚ
  streamGeneration : Nat
  serverState : JObject
  groupState : JObject

/-- The `volume` setter: clamp to [0, 100] via
`Math.max(0, Math.min(100, value))` and store. -/
def ManagedState.setVolume (s : ManagedState) (value : JSNum) : ManagedState :=
  { s with volume := clampVolume value }

/-- `resetStreamAnchors`: zero both anchors and bump the stream
generation counter. -/
def ManagedState.resetStreamAnchors (s : ManagedState) : ManagedState :=
  { s with streamStartServerTime := 0, streamStartAudioTime := 0,
           streamGeneration := s.streamGeneration + 1 }

/-- `updateServerState`: diff-merge the update into the cached server
state.  (Present in `state-manager.ts`; the message handler never calls
it — see the `server/state` theorem.) -/
def ManagedState.updateServerState (s : ManagedState) (update : JObject) : ManagedState :=
  { s with serverState := applyDiff s.serverState update }

/-- `updateGroupState`: diff-merge the update into the cached group
state. -/
def ManagedState.updateGroupState (s : ManagedState) (update : JObject) : ManagedState :=
  { s with groupState := applyDiff s.groupState update }

/-! ## Audio scheduler (audio processor, newest revision) -/

/-- A decoded audio buffer: per-channel sample data plus the sample
rate.  All channels of a Web Audio buffer share one frame count. -/
structure AudioBuffer where
  channels : List (List ℚ)
  sampleRate : ℚ
deriving DecidableEq

/-- The frame count of the buffer (`buffer.length`). -/
def AudioBuffer.frameCount (b : AudioBuffer) : Nat :=
  (b.channels.headD []).length

/-- `buffer.duration` in seconds: frame count over sample rate. -/
def AudioBuffer.duration (b : AudioBuffer) : ℚ :=
  (b.frameCount : ℚ) / b.sampleRate

/-- An entry of `audioBufferQueue`: decoded samples, the server
timestamp of the first sample (µs), and the stream generation captured
when the chunk was enqueued. -/
structure AudioBufferQueueItem where
  buffer : AudioBuffer
  serverTime : ℚ
  generation : Nat
deriving DecidableEq

/-- An entry of `scheduledSources`: the sink-time interval the source
was started for. -/
structure ScheduledSource where
  startTime : ℚ
  endTime : ℚ
deriving DecidableEq

/-- The `currentCorrectionMethod` values of the audio processor. -/
inductive CorrectionMethod where
  | waitingForTimeSync : CorrectionMethod
  | none : CorrectionMethod
  | samples : CorrectionMethod
  | rate : CorrectionMethod
  | resync : CorrectionMethod
deriving DecidableEq

/-- The correction modes of the audio processor. -/
inductive CorrectionMode where
  | sync : CorrectionMode
  | quality : CorrectionMode
  | qualityLocal : CorrectionMode
deriving DecidableEq

/-- One row of `CORRECTION_THRESHOLDS`.  The `quality` modes disable the
rate tiers with `Infinity`; an absent rational (`Option.none`) encodes
`Infinity` here, and `atLeastThreshold` reproduces the `>=` comparison
against it. -/
structure CorrectionThresholds where
  resyncAboveMs : ℚ
  rate2AboveMs : Option ℚ
  rate1AboveMs : Option ℚ
  samplesBelowMs : ℚ
  deadbandBelowMs : ℚ
  timeFilterMaxErrorMs : ℚ

/-- The `CORRECTION_THRESHOLDS` table. -/
def CORRECTION_THRESHOLDS : CorrectionMode → CorrectionThresholds
  | .sync => ⟨200, some 35, some 8, 8, 1, 15⟩
  | .quality => ⟨35, Option.none, Option.none, 35, 1, 8⟩
  | .qualityLocal => ⟨600, Option.none, Option.none, 600, 5, 10⟩

/-- `x >= t` where `t` may be `Infinity` (then always false for the
finite `x` at hand). -/
def atLeastThreshold (x : ℚ) : Option ℚ → Bool
  | Option.none => false
  | some v => decide (v ≤ x)

/-- `Math.abs` on an exact number. -/
def jsAbs (x : ℚ) : ℚ := if x < 0 then -x else x

/-- `Math.max` on two exact numbers. -/
def jsMaxQ (a b : ℚ) : ℚ := if a ≤ b then b else a

/-- The scheduler state of the audio processor (the fields read or
written by a scheduling pass).  The output-latency EMA, debug-logging
bookkeeping and decoder handles are not consumed by the pass and are
omitted. -/
structure SchedState where
  audioBufferQueue : List AudioBufferQueueItem
  scheduledSources : List ScheduledSource
  nextPlaybackTime : ℚ
  lastScheduledServerTime : ℚ
  currentSyncErrorMs : ℚ
  smoothedSyncErrorMs : ℚ
  resyncCount : Nat
  currentPlaybackRate : ℚ
  currentCorrectionMethod : CorrectionMethod
  lastSamplesAdjusted : Int
deriving DecidableEq

/-- The values a scheduling pass reads from its collaborators, fixed for
the duration of one pass: the sink clock (`audioContext.currentTime`),
the local clock (`performance.now() * 1000`), the configured sync delay
and correction mode, the time filter (its `error`, `is_synchronized`
flag and `computeClientTime` conversion), and the current stream
generation from the state store. -/
structure PassEnv where
  audioContextTime : ℚ
  nowUs : ℚ
  syncDelayMs : ℚ
  correctionMode : CorrectionMode
  timeFilterErrorUs : ℚ
  timeFilterSynchronized : Bool
  computeClientTime : ℚ → ℚ
  currentGeneration : Nat

/-- `copyBuffer`: a fresh copy of the same samples (identity on the
value level). -/
def copyBuffer (b : AudioBuffer) : AudioBuffer := b

/-- Insert one interpolated sample at the start of a channel:
`[A, B, ...] → [A, (A+B)/2, B, ...]`. -/
def insertOneSample : List ℚ → List ℚ
  | a :: b :: rest => a :: ((a + b) / 2) :: b :: rest
  | l => l

/-- Delete one sample at the end of a channel:
`[..., Y, Z] → [..., (Y+Z)/2]`. -/
def deleteOneSample : List ℚ → List ℚ
  | [y, z] => [(y + z) / 2]
  | x :: rest => x :: deleteOneSample rest
  | [] => []

/-- `adjustBufferSamples`: insert (`+1`) or delete (`-1`) one
interpolated sample; zero adjustment or a buffer shorter than two
frames is passed through as a fresh copy. -/
def adjustBufferSamples (b : AudioBuffer) (samplesToAdjust : Int) : AudioBuffer :=
  if samplesToAdjust = 0 ∨ b.frameCount < 2 then copyBuffer b
  else if 0 < samplesToAdjust then
    { channels := b.channels.map insertOneSample, sampleRate := b.sampleRate }
  else
    { channels := b.channels.map deleteOneSample, sampleRate := b.sampleRate }

/-- `cutScheduledSources`: stop (and remove) every scheduled source that
would still be playing after `max cutoffTime currentTime`; sources that
end by then are kept. -/
def cutScheduledSources (currentTime cutoffTime : ℚ)
    (sources : List ScheduledSource) : List ScheduledSource :=
  let stopTime := jsMaxQ cutoffTime currentTime
  sources.filter (fun entry => decide (entry.endTime ≤ stopTime))

/-- The drift-corrected absolute target sink time of a chunk
(step 5 of the pass): `audioContextTime + (computeClientTime(serverTime)
- nowUs)/1e6 + 0.2 + syncDelay`. -/
def targetPlaybackTimeOf (env : PassEnv) (chunk : AudioBufferQueueItem) : ℚ :=
  env.audioContextTime
    + (env.computeClientTime chunk.serverTime - env.nowUs) / 1000000
    + 1 / 5 + env.syncDelayMs / 1000

/-- The updated EMA of the sync error for a contiguous chunk:
`0.1 * syncErrorMs + 0.9 * smoothedSyncErrorMs`. -/
def smoothedErrorOf (st : SchedState) (target : ℚ) : ℚ :=
  (1 / 10) * ((st.nextPlaybackTime - target) * 1000)
    + (9 / 10) * st.smoothedSyncErrorMs

/-- Which branch of the pass decided a chunk's schedule. -/
inductive ScheduleBranch where
  | anchorFree : ScheduleBranch
  | gapResync : ScheduleBranch
  | filterWait : ScheduleBranch
  | deadband : ScheduleBranch
  | sampleAdjust : ScheduleBranch
  | rateAdjust : ScheduleBranch
  | errorResync : ScheduleBranch
deriving DecidableEq

/-- Branches that schedule at `nextPlaybackTime` (back-to-back). -/
def isAnchorScheduled : ScheduleBranch → Bool
  | .filterWait => true
  | .deadband => true
  | .sampleAdjust => true
  | .rateAdjust => true
  | _ => false

/-- Result of the branch decision for one chunk: the state after the
branch side effects, which branch fired, the (possibly adjusted) buffer,
and the chosen schedule time and playback rate. -/
structure BranchOut where
  st : SchedState
  branch : ScheduleBranch
  buffer : AudioBuffer
  playbackTime : ℚ
  playbackRate : ℚ

/-- The state after the sync-error bookkeeping of the contiguous case:
store the raw error for display and fold it into the EMA. -/
def withSyncError (st : SchedState) (target : ℚ) : SchedState :=
  { st with currentSyncErrorMs := (st.nextPlaybackTime - target) * 1000,
            smoothedSyncErrorMs := smoothedErrorOf st target }

/-- Case A (no anchor): schedule at the drift-corrected absolute target
at rate 1. -/
def branchAnchorFree (env : PassEnv) (st : SchedState)
    (chunk : AudioBufferQueueItem) : BranchOut :=
  ⟨st, .anchorFree, copyBuffer chunk.buffer, targetPlaybackTimeOf env chunk, 1⟩

/-- Case B (gap in the server timeline): count a resync, cancel sources
that overlap the new target, and schedule at the absolute target at
rate 1. -/
def branchGapResync (env : PassEnv) (st : SchedState)
    (chunk : AudioBufferQueueItem) : BranchOut :=
  ⟨{ st with resyncCount := st.resyncCount + 1,
             scheduledSources := cutScheduledSources env.audioContextTime
               (targetPlaybackTimeOf env chunk) st.scheduledSources,
             currentCorrectionMethod := .resync,
             lastSamplesAdjusted := 0 },
    .gapResync, copyBuffer chunk.buffer, targetPlaybackTimeOf env chunk, 1⟩

/-- Tier 0 (filter not yet trusted): schedule back-to-back at rate 1
without correcting. -/
def branchFilterWait (st : SchedState) (target : ℚ)
    (chunk : AudioBufferQueueItem) : BranchOut :=
  ⟨{ withSyncError st target with
      currentCorrectionMethod := .waitingForTimeSync, lastSamplesAdjusted := 0 },
    .filterWait, copyBuffer chunk.buffer, st.nextPlaybackTime, 1⟩

/-- Tier 4 (hard resync): count a resync, zero the EMA, cancel
overlapping sources, schedule at the absolute target at rate 1. -/
def branchErrorResync (env : PassEnv) (st : SchedState) (target : ℚ)
    (chunk : AudioBufferQueueItem) : BranchOut :=
  ⟨{ withSyncError st target with
      smoothedSyncErrorMs := 0,
      resyncCount := st.resyncCount + 1,
      scheduledSources := cutScheduledSources env.audioContextTime
        target st.scheduledSources,
      currentCorrectionMethod := .resync,
      lastSamplesAdjusted := 0 },
    .errorResync, copyBuffer chunk.buffer, target, 1⟩

/-- Tier 1 (deadband): schedule back-to-back at rate 1 with no
correction. -/
def branchDeadband (st : SchedState) (target : ℚ)
    (chunk : AudioBufferQueueItem) : BranchOut :=
  ⟨{ withSyncError st target with
      currentCorrectionMethod := .none, lastSamplesAdjusted := 0 },
    .deadband, copyBuffer chunk.buffer, st.nextPlaybackTime, 1⟩

/-- How many samples tier 2 adjusts: delete one when the renderer runs
behind the target (positive smoothed error), insert one otherwise. -/
def samplesToAdjustOf (smoothed : ℚ) : Int :=
  if 0 < smoothed then -1 else 1

/-- Tier 2 (single-sample correction): schedule back-to-back at rate 1,
inserting or deleting one interpolated sample at the edge of the
frame. -/
def branchSampleAdjust (st : SchedState) (target : ℚ)
    (chunk : AudioBufferQueueItem) : BranchOut :=
  let smoothed := smoothedErrorOf st target
  ⟨{ withSyncError st target with
      currentCorrectionMethod := .samples,
      lastSamplesAdjusted := samplesToAdjustOf smoothed },
    .sampleAdjust, adjustBufferSamples chunk.buffer (samplesToAdjustOf smoothed),
    st.nextPlaybackTime, 1⟩

/-- The playback rate tier 3 picks: 2 % above `rate2AboveMs`, 1 % above
`rate1AboveMs`, signed toward the target. -/
def ratePlaybackRate (th : CorrectionThresholds) (smoothed : ℚ) : ℚ :=
  if 0 < smoothed then
    if atLeastThreshold (jsAbs smoothed) th.rate2AboveMs then 51 / 50
    else if atLeastThreshold (jsAbs smoothed) th.rate1AboveMs then 101 / 100
    else 1
  else
    if atLeastThreshold (jsAbs smoothed) th.rate2AboveMs then 49 / 50
    else if atLeastThreshold (jsAbs smoothed) th.rate1AboveMs then 99 / 100
    else 1

/-- Tier 3 (rate correction): schedule back-to-back at the adjusted
playback rate. -/
def branchRateAdjust (th : CorrectionThresholds) (st : SchedState)
    (target : ℚ) (chunk : AudioBufferQueueItem) : BranchOut :=
  let playbackRate := ratePlaybackRate th (smoothedErrorOf st target)
  let method :=
    if playbackRate = 1 then CorrectionMethod.none else CorrectionMethod.rate
  ⟨{ withSyncError st target with
      currentCorrectionMethod := method, lastSamplesAdjusted := 0 },
    .rateAdjust, copyBuffer chunk.buffer, st.nextPlaybackTime, playbackRate⟩

/-- The branch decision of `processAudioQueue` for one chunk, a direct
transcription of the if-chain of the loop body: no anchor → absolute
target; server-timeline gap → hard resync; contiguous → EMA update, then
filter-confidence wait, tier-4 resync, deadband, single-sample
adjustment, or rate adjustment. -/
def decideBranch (env : PassEnv) (st : SchedState)
    (chunk : AudioBufferQueueItem) : BranchOut :=
  let target := targetPlaybackTimeOf env chunk
  if st.nextPlaybackTime = 0 ∨ st.lastScheduledServerTime = 0 then
    branchAnchorFree env st chunk
  else if jsAbs ((chunk.serverTime - st.lastScheduledServerTime) / 1000000)
      < 1 / 10 then
    let th := CORRECTION_THRESHOLDS env.correctionMode
    if th.timeFilterMaxErrorMs < env.timeFilterErrorUs / 1000 then
      branchFilterWait st target chunk
    else if th.resyncAboveMs < jsAbs (smoothedErrorOf st target) then
      branchErrorResync env st target chunk
    else if jsAbs (smoothedErrorOf st target) < th.deadbandBelowMs then
      branchDeadband st target chunk
    else if jsAbs (smoothedErrorOf st target) < th.samplesBelowMs then
      branchSampleAdjust st target chunk
    else
      branchRateAdjust th st target chunk
  else
    branchGapResync env st chunk

/-- What one loop iteration did with its chunk: handed a source to the
sink via `source.start(playbackTime)` with the given buffer and rate, or
dropped it as late. -/
inductive PassEvent where
  | scheduled (chunk : AudioBufferQueueItem) (branch : ScheduleBranch)
      (buffer : AudioBuffer) (playbackTime playbackRate : ℚ) : PassEvent
  | droppedLate (chunk : AudioBufferQueueItem) : PassEvent
deriving DecidableEq

/-- The queue item an event consumed. -/
def PassEvent.chunkOf : PassEvent → AudioBufferQueueItem
  | .scheduled chunk _ _ _ _ => chunk
  | .droppedLate chunk => chunk

/-- The `schedule_at` values handed to the sink, in order. -/
def scheduledTimes (events : List PassEvent) : List ℚ :=
  events.filterMap fun ev =>
    match ev with
    | .scheduled _ _ _ playbackTime _ => some playbackTime
    | .droppedLate _ => Option.none

/-- The branches of the handed-off events, in order. -/
def scheduledBranches (events : List PassEvent) : List ScheduleBranch :=
  events.filterMap fun ev =>
    match ev with
    | .scheduled _ branch _ _ _ => some branch
    | .droppedLate _ => Option.none

/-- One iteration of the scheduling loop: decide the branch, record the
playback rate, then either drop the chunk as late (resetting both
anchors) or hand it to the sink and advance the anchors
(`nextPlaybackTime` by the rate-adjusted duration,
`lastScheduledServerTime` by the buffer duration in µs). -/
def passStep (env : PassEnv) (st : SchedState)
    (chunk : AudioBufferQueueItem) : SchedState × PassEvent :=
  let b := decideBranch env st chunk
  let st1 := { b.st with currentPlaybackRate := b.playbackRate }
  if b.playbackTime < env.audioContextTime then
    ({ st1 with nextPlaybackTime := 0, lastScheduledServerTime := 0 },
      .droppedLate chunk)
  else
    let actualDuration := b.buffer.duration / b.playbackRate
    ({ st1 with
        nextPlaybackTime := b.playbackTime + actualDuration,
        lastScheduledServerTime := chunk.serverTime + b.buffer.duration * 1000000,
        scheduledSources := st1.scheduledSources
          ++ [⟨b.playbackTime, b.playbackTime + actualDuration⟩] },
      .scheduled chunk b.branch b.buffer b.playbackTime b.playbackRate)

/-- The scheduling loop (`while (this.audioBufferQueue.length > 0)`),
consuming the sorted queue front to back. -/
def runPass (env : PassEnv) : SchedState → List AudioBufferQueueItem →
    SchedState × List PassEvent
  | st, [] => (st, [])
  | st, chunk :: rest =>
      let sp := passStep env st chunk
      let r := runPass env sp.1 rest
      (r.1, sp.2 :: r.2)

/-- Stable insertion of a chunk into a queue already sorted by
`serverTime` ascending: the chunk goes before the first entry whose
timestamp is not smaller. -/
def insertChunk (c : AudioBufferQueueItem) :
    List AudioBufferQueueItem → List AudioBufferQueueItem
  | [] => [c]
  | d :: rest =>
      if d.serverTime < c.serverTime then d :: insertChunk c rest
      else c :: d :: rest

/-- Stable sort of the queue by `serverTime` ascending (the
`(a, b) => a.serverTime - b.serverTime` comparator). -/
def sortQueue : List AudioBufferQueueItem → List AudioBufferQueueItem
  | [] => []
  | c :: rest => insertChunk c (sortQueue rest)

/-- The full scheduling pass `processAudioQueue` (sink assumed
initialized, as the pass returns untouched otherwise): drop chunks of
stale generations, sort by server timestamp, hold everything if the time
filter is not yet synchronized, otherwise run the scheduling loop until
the queue is empty.  Returns the final scheduler state and the ordered
list of events (sources handed to the sink, late drops). -/
def processAudioQueue (env : PassEnv) (st : SchedState) :
    SchedState × List PassEvent :=
  let filtered := st.audioBufferQueue.filter
    (fun c => c.generation == env.currentGeneration)
  let sorted := sortQueue filtered
  if env.timeFilterSynchronized then
    runPass env { st with audioBufferQueue := [] } sorted
  else
    ({ st with audioBufferQueue := sorted }, [])

/-- The post-decode enqueue of `handleBinaryMessage`: a chunk whose
captured generation no longer matches the current stream generation is
discarded; otherwise it is pushed onto the queue stamped with the
captured generation. -/
def enqueueDecodedChunk (capturedGeneration currentGeneration : Nat)
    (queue : List AudioBufferQueueItem) (buffer : AudioBuffer)
    (serverTimeUs : ℚ) : List AudioBufferQueueItem :=
  if capturedGeneration ≠ currentGeneration then queue
  else queue ++ [⟨buffer, serverTimeUs, capturedGeneration⟩]

/-! ## Protocol handler (`protocol-handler.ts`) -/

/-- The session state the protocol handler manipulates: the state store
plus the audio processor's scheduler state. -/
structure Client where
  sm : ManagedState
  audio : SchedState

/-- `clearBuffers` of the audio processor: stop every scheduled source,
discard the queue, reset the stream anchors in the state store (bumping
the generation) and zero all seamless-playback and sync bookkeeping. -/
def clearBuffers (c : Client) : Client :=
  { sm := c.sm.resetStreamAnchors,
    audio := { audioBufferQueue := [], scheduledSources := [],
               nextPlaybackTime := 0, lastScheduledServerTime := 0,
               currentSyncErrorMs := 0, smoothedSyncErrorMs := 0,
               resyncCount := 0, currentPlaybackRate := 1,
               currentCorrectionMethod := .none, lastSamplesAdjusted := 0 } }

/-- `handleStreamStart`: store the new format; if no format was current
(a genuine new stream) reset the stream anchors and clear all buffers,
otherwise (a format update) leave buffers and generation alone; in both
cases mark the player as playing. -/
def handleStreamStart (payload : StreamFormat) (c : Client) : Client :=
  let isFormatUpdate := c.sm.currentStreamFormat.isSome
  let c1 : Client := { c with sm := { c.sm with currentStreamFormat := some payload } }
  let c2 :=
    if isFormatUpdate then c1
    else clearBuffers { c1 with sm := c1.sm.resetStreamAnchors }
  { c2 with sm := { c2.sm with isPlaying := true } }

/-- Whether a `roles` payload addresses the player role: roles absent,
or the list contains "player". -/
def rolesIncludePlayer : Option (List String) → Bool
  | Option.none => true
  | some roles => roles.contains "player"

/-- `handleStreamClear` (seek): if addressed to the player, clear the
buffers and reset the stream anchors; playback state and format are left
alone. -/
def handleStreamClear (roles : Option (List String)) (c : Client) : Client :=
  if rolesIncludePlayer roles then
    let c1 := clearBuffers c
    { c1 with sm := c1.sm.resetStreamAnchors }
  else c

/-- `handleStreamEnd`: if addressed to the player, clear the buffers,
drop the current format and stop playing. -/
def handleStreamEnd (roles : Option (List String)) (c : Client) : Client :=
  if rolesIncludePlayer roles then
    let c1 := clearBuffers c
    { c1 with sm := { c1.sm with currentStreamFormat := Option.none,
                                 isPlaying := false } }
  else c

/-- The inbound JSON messages whose handling touches the modelled state
(`server/hello`, `server/time` and `server/command` drive timers, the
time filter and outbound traffic, which live outside this state). -/
inductive ServerMessage where
  | serverState (payload : JObject) : ServerMessage
  | groupUpdate (payload : JObject) : ServerMessage
  | streamStart (player : StreamFormat) : ServerMessage
  | streamClear (roles : Option (List String)) : ServerMessage
  | streamEnd (roles : Option (List String)) : ServerMessage

/-- The receive-side dispatch of `handleServerMessage`.  The
`server/state` and `group/update` cases are verbatim from the source: an
empty case ("Handle these if needed in the future"), leaving the client
state untouched. -/
def handleServerMessage : ServerMessage → Client → Client
  | .serverState _, c => c
  | .groupUpdate _, c => c
  | .streamStart p, c => handleStreamStart p c
  | .streamClear r, c => handleStreamClear r c
  | .streamEnd r, c => handleStreamEnd r c

/-! ## Concrete values used by witnesses and counterexamples -/

/-- Follow a key path through nested objects. -/
def lookupPath (o : JObject) : List String → Option Json
  | [] => some (.obj o)
  | [k] => getKey o k
  | k :: rest =>
      match getKey o k with
      | some (.obj o2) => lookupPath o2 rest
      | _ => Option.none

/-- Existing cached state with three levels of nesting:
`{a: {b: {c: {x: 1}}}}`. -/
def nestedExisting : JObject :=
  .cons "a" (.obj (.cons "b" (.obj (.cons "c"
    (.obj (.cons "x" (.num 1) .nil)) .nil)) .nil)) .nil

/-- A diff touching the same depth-three object: `{a: {b: {c: {y: 2}}}}`. -/
def nestedDiff : JObject :=
  .cons "a" (.obj (.cons "b" (.obj (.cons "c"
    (.obj (.cons "y" (.num 2) .nil)) .nil)) .nil)) .nil

/-- A `server/state` payload: `{metadata: {title: "x"}}`. -/
def demoServerStatePayload : JObject :=
  .cons "metadata" (.obj (.cons "title" (.str "x") .nil)) .nil

/-- The state store as initialized by the `StateManager` constructor. -/
def initialManagedState : ManagedState :=
  { volume := .finite 100, muted := false, playerState := .synchronized,
    isPlaying := false, currentStreamFormat := Option.none,
    streamStartServerTime := 0, streamStartAudioTime := 0,
    streamGeneration := 0, serverState := .nil, groupState := .nil }

/-- The scheduler state right after construction / `clearBuffers`. -/
def initialSchedState : SchedState :=
  { audioBufferQueue := [], scheduledSources := [], nextPlaybackTime := 0,
    lastScheduledServerTime := 0, currentSyncErrorMs := 0,
    smoothedSyncErrorMs := 0, resyncCount := 0, currentPlaybackRate := 1,
    currentCorrectionMethod := .none, lastSamplesAdjusted := 0 }

/-- A 48 kHz stereo PCM format. -/
def demoFormat : StreamFormat :=
  { codec := "pcm", sample_rate := 48000, channels := 2,
    bit_depth := some 16, codec_header := Option.none }

/-- A 44.1 kHz stereo FLAC format (used as a format update). -/
def demoFormatFlac : StreamFormat :=
  { codec := "flac", sample_rate := 44100, channels := 2,
    bit_depth := some 16, codec_header := Option.none }

/-- A client mid-stream: a format is set, frames are queued and one
source is scheduled. -/
def demoClient : Client where
  sm := { initialManagedState with
          currentStreamFormat := some demoFormat
          isPlaying := true
          streamGeneration := 3 }
  audio := { initialSchedState with
             audioBufferQueue := [⟨⟨[[0, 0, 0]], 100⟩, 2000000, 3⟩]
             scheduledSources := [⟨5, 6⟩]
             nextPlaybackTime := 6
             lastScheduledServerTime := 2000000 }

/-- Ordering constraint between two adjacent pass events: a frame that
was scheduled back-to-back (handed to the sink at `nextPlaybackTime`,
i.e. tiers 0-3 of the contiguous case) starts no earlier than the event
handed right before it. -/
def backToBackOrdered : PassEvent → PassEvent → Prop :=
  fun e1 e2 =>
    match e1, e2 with
    | .scheduled _ _ _ p1 _, .scheduled _ b2 _ p2 _ =>
        isAnchorScheduled b2 = true → p1 ≤ p2
    | _, _ => True

/-- An event agrees with the scheduler state it was produced from: if it
was scheduled back-to-back, its start time is that state's
`nextPlaybackTime`. -/
def headConsistent (st : SchedState) : PassEvent → Prop
  | .scheduled _ b _ p _ => isAnchorScheduled b = true → p = st.nextPlaybackTime
  | .droppedLate _ => True

/-- A pass environment with ideal clocks: sink and local clock at zero,
identity server-to-client conversion, sync mode, filter synchronized and
confident, generation zero. -/
def idEnv : PassEnv :=
  { audioContextTime := 0, nowUs := 0, syncDelayMs := 0,
    correctionMode := .sync, timeFilterErrorUs := 0,
    timeFilterSynchronized := true, computeClientTime := fun t => t,
    currentGeneration := 0 }

/-- A mono buffer of five zero samples at 100 Hz (duration 1/20 s). -/
def flatBuffer : AudioBuffer := ⟨[List.replicate 5 0], 100⟩

/-- A chunk at server time 1 s, generation 0. -/
def chunkA : AudioBufferQueueItem := ⟨flatBuffer, 1000000, 0⟩

/-- A stale chunk from generation 5. -/
def staleChunk : AudioBufferQueueItem := ⟨flatBuffer, 500000, 5⟩

/-- A chunk whose server time lies one second in the past, so that its
drift-corrected target precedes the sink clock of `lateEnv`. -/
def lateChunk : AudioBufferQueueItem := ⟨flatBuffer, -1000000, 0⟩

/-- An environment whose sink clock has already advanced to 10 s. -/
def lateEnv : PassEnv := { idEnv with audioContextTime := 10 }

/-- Scheduler state for the monotonicity counterexample: an anchor far
in the future (`nextPlaybackTime = 100` s) inherited from earlier
passes, server anchor at 1 s, and a smoothed sync error chosen so the
first queued chunk falls in the deadband while the second triggers a
tier-4 hard resync. -/
def resyncState : SchedState :=
  { initialSchedState with
    audioBufferQueue := [chunkA, chunkA]
    nextPlaybackTime := 100
    lastScheduledServerTime := 1000000
    smoothedSyncErrorMs := -98800 / 9 }

/-- Scheduler state holding one current and one stale chunk, used by the
hold-when-unsynchronized and drain witnesses. -/
def mixedQueueState : SchedState :=
  { initialSchedState with audioBufferQueue := [chunkA, staleChunk] }

/-- Scheduler state for the tier-2 witness: anchored at 10 s with a
smoothed error that lands the next contiguous chunk in the
single-sample tier. -/
def samplesTierState : SchedState :=
  { initialSchedState with
    audioBufferQueue := []
    nextPlaybackTime := 10
    lastScheduledServerTime := 1000000
    smoothedSyncErrorMs := -2920 / 3 }

/-- A four-sample mono buffer with distinct values at 100 Hz. -/
def rampBuffer : AudioBuffer := ⟨[[1, 2, 3, 4]], 100⟩

/-- A contiguous chunk (server time equal to the server anchor of
`samplesTierState`). -/
def contiguousChunk : AudioBufferQueueItem := ⟨rampBuffer, 1000000, 0⟩

/-! ## Lemmas on JS object operations -/

theorem getKey_setKey_self : (o : JObject) → ∀ k v, getKey (setKey o k v) k = some v
  | .nil => by intro k v; simp [setKey, getKey]
  | .cons k2 v2 tl => by
      intro k v
      by_cases h : k2 = k
      · subst h; simp [setKey, getKey]
      · simp [setKey, getKey, h, getKey_setKey_self tl]

theorem getKey_setKey_ne : (o : JObject) → ∀ k v key, k ≠ key →
    getKey (setKey o k v) key = getKey o key
  | .nil => by intro k v key hne; simp [setKey, getKey, hne]
  | .cons k2 v2 tl => by
      intro k v key hne
      by_cases h : k2 = k
      · subst h; simp [setKey, getKey, hne]
      · by_cases h2 : k2 = key
        · subst h2; simp [setKey, getKey, h]
        · simp [setKey, getKey, h, h2, getKey_setKey_ne tl k v key hne]

theorem getKey_delKey_self : (o : JObject) → ∀ k, getKey (delKey o k) k = Option.none
  | .nil => by intro k; simp [delKey, getKey]
  | .cons k2 v2 tl => by
      intro k
      by_cases h : k2 = k
      · subst h; simp [delKey, getKey_delKey_self tl]
      · simp [delKey, getKey, h, getKey_delKey_self tl]

theorem getKey_delKey_ne : (o : JObject) → ∀ k key, k ≠ key →
    getKey (delKey o k) key = getKey o key
  | .nil => by intro k key hne; simp [delKey, getKey]
  | .cons k2 v2 tl => by
      intro k key hne
      by_cases h : k2 = k
      · subst h; simp [delKey, getKey, hne, getKey_delKey_ne tl _ key hne]
      · by_cases h2 : k2 = key
        · subst h2; simp [delKey, getKey, h]
        · simp [delKey, getKey, h, h2, getKey_delKey_ne tl k key hne]

theorem applyOne_getKey_self (e : JObject) (k : String) :
    ∀ v, getKey (applyOne e k v) k = applyOneLookup e k v := by
  intro v
  cases v with
  | null => simpa [applyOne, applyOneLookup] using getKey_delKey_self e k
  | bool b => simpa [applyOne, applyOneLookup] using getKey_setKey_self e k (.bool b)
  | num q => simpa [applyOne, applyOneLookup] using getKey_setKey_self e k (.num q)
  | str s => simpa [applyOne, applyOneLookup] using getKey_setKey_self e k (.str s)
  | arr xs => simpa [applyOne, applyOneLookup] using getKey_setKey_self e k (.arr xs)
  | obj df =>
      show getKey (applyOne e k (.obj df)) k = applyOneLookup e k (.obj df)
      rw [applyOne, applyOneLookup]
      cases hv : getKey e k with
      | none => simpa using getKey_setKey_self e k (.obj df)
      | some j =>
          cases j <;>
            simpa using getKey_setKey_self e k (.obj _)

theorem applyOne_getKey_ne (e : JObject) (k : String) (key : String)
    (hne : k ≠ key) : ∀ v, getKey (applyOne e k v) key = getKey e key := by
  intro v
  cases v with
  | null => simpa [applyOne] using getKey_delKey_ne e k key hne
  | bool b => simpa [applyOne] using getKey_setKey_ne e k (.bool b) key hne
  | num q => simpa [applyOne] using getKey_setKey_ne e k (.num q) key hne
  | str s => simpa [applyOne] using getKey_setKey_ne e k (.str s) key hne
  | arr xs => simpa [applyOne] using getKey_setKey_ne e k (.arr xs) key hne
  | obj df =>
      rw [applyOne]
      cases hv : getKey e k with
      | none => simpa using getKey_setKey_ne e k (.obj df) key hne
      | some j => cases j <;> simpa using getKey_setKey_ne e k (.obj _) key hne

theorem mergeLookup_congr (e1 e2 d : JObject) (key : String)
    (h : getKey e1 key = getKey e2 key) :
    mergeLookup e1 d key = mergeLookup e2 d key := by
  unfold mergeLookup
  cases getKey d key with
  | none => exact h
  | some dv =>
      cases dv with
      | null => rfl
      | bool b => rfl
      | num q => rfl
      | str s => rfl
      | arr xs => rfl
      | obj df => unfold applyOneLookup; rw [h]

theorem getKey_eq_none_of_not_mem : (o : JObject) → ∀ key,
    key ∉ keysOf o → getKey o key = Option.none
  | .nil => by intro key h; simp [getKey]
  | .cons k v tl => by
      intro key h
      simp only [keysOf, List.mem_cons, not_or] at h
      simp [getKey, Ne.symm h.1, getKey_eq_none_of_not_mem tl key h.2]

/-- The per-key characterization of the source diff-merge, for diffs
with unique keys (every JS object): untouched keys keep their value,
`null` deletes, an object diff value over an existing plain object
merges recursively (to arbitrary depth, since the same rule applies
again inside), and every other value replaces. -/
theorem applyDiff_getKey : (d : JObject) → ∀ (e : JObject) (key : String),
    nodupKeys d → getKey (applyDiff e d) key = mergeLookup e d key
  | .nil => by
      intro e key _
      simp [applyDiff, mergeLookup, getKey]
  | .cons k v tl => by
      intro e key hnd
      have hnd2 : (keysOf tl).Nodup ∧ k ∉ keysOf tl := by
        have := hnd
        simp only [nodupKeys, keysOf, List.nodup_cons] at this
        exact ⟨this.2, this.1⟩
      have step : applyDiff e (.cons k v tl) = applyDiff (applyOne e k v) tl := rfl
      rw [step, applyDiff_getKey tl (applyOne e k v) key hnd2.1]
      by_cases hkey : k = key
      · subst hkey
        have htl : getKey tl k = Option.none :=
          getKey_eq_none_of_not_mem tl k hnd2.2
        unfold mergeLookup
        rw [htl]
        have hck : getKey (JObject.cons k v tl) k = some v := by
          simp [getKey]
        rw [hck, applyOne_getKey_self e k v]
      · have hcongr := mergeLookup_congr (applyOne e k v) e tl key
          (applyOne_getKey_ne e k key hkey v)
        rw [hcongr]
        have hck : getKey (JObject.cons k v tl) key = getKey tl key := by
          simp [getKey, hkey]
        unfold mergeLookup
        rw [hck]

/-! ## C7 — depth of the diff-merge -/

/-- C7 counterexample: on the depth-three state `{a:{b:{c:{x:1}}}}` and
diff `{a:{b:{c:{y:2}}}}`, the source merge keeps the pre-existing key
`x` at depth three (it merges at every depth), while the one-level-deep
rule the claim states would have replaced that object, losing `x`.  So
the claim that object values at depths greater than one are replaced
rather than merged is false. -/
theorem applyDiff_depth_counterexample :
    lookupPath (applyDiff nestedExisting nestedDiff) ["a", "b", "c", "x"]
        = some (.num 1)
    ∧ lookupPath (applyDiff nestedExisting nestedDiff) ["a", "b", "c", "y"]
        = some (.num 2)
    ∧ lookupPath (applyDiffSpecOneLevel nestedExisting nestedDiff)
        ["a", "b", "c", "x"] = Option.none := by
  refine ⟨rfl, rfl, rfl⟩

/-- C7 (amended): the diff-merge recurses to arbitrary depth — at every
level, `null` deletes the key, an object value at a key whose existing
value is a plain object is merged recursively, and any other value
replaces.  Stated as the per-key characterization, whose merge case
applies `applyDiff` again to the nested objects. -/
theorem applyDiff_merges_at_every_depth (e d : JObject) (key : String)
    (hnd : nodupKeys d) :
    getKey (applyDiff e d) key = mergeLookup e d key :=
  applyDiff_getKey d e key hnd

/-- Witness for the amended C7 at a concrete input: the nested diff has
unique keys, and the merged state at key "a" is the recursive merge of
the two nested objects. -/
theorem applyDiff_merges_at_every_depth_witness :
    nodupKeys nestedDiff
    ∧ getKey (applyDiff nestedExisting nestedDiff) "a"
        = mergeLookup nestedExisting nestedDiff "a" :=
  ⟨by decide, applyDiff_merges_at_every_depth nestedExisting nestedDiff "a" (by decide)⟩

/-! ## C8 — volume clamp -/

/-- C8 counterexample: writing NaN (a JavaScript number) to the volume
setter stores NaN — `Math.max(0, Math.min(100, NaN))` is NaN — so the
stored volume is not in [0, 100]. -/
theorem clampVolume_nan_counterexample :
    (initialManagedState.setVolume .nan).volume = .nan
    ∧ ¬ volumeInRange ((initialManagedState.setVolume .nan).volume) := by
  refine ⟨rfl, ?_⟩
  rintro ⟨q, hq, -, -⟩
  rw [show (initialManagedState.setVolume .nan).volume = JSNum.nan from rfl] at hq
  exact JSNum.noConfusion hq

/-- C8 (amended): for every input other than NaN — any finite value,
however negative or large, and both infinities — the stored volume lies
in [0, 100]. -/
theorem setVolume_clamps (s : ManagedState) (v : JSNum) (hv : v ≠ .nan) :
    volumeInRange ((s.setVolume v).volume) := by
  cases v with
  | nan => exact absurd rfl hv
  | posInf => exact ⟨100, rfl, by norm_num, le_refl 100⟩
  | negInf => exact ⟨0, rfl, le_refl 0, by norm_num⟩
  | finite q =>
      refine ⟨max 0 (min 100 q), rfl, le_max_left 0 _, ?_⟩
      exact max_le (by norm_num) (min_le_left 100 q)

/-- Witness for the amended C8: writing 250 stores a value in range
(namely 100). -/
theorem setVolume_clamps_witness :
    (JSNum.finite 250 ≠ .nan)
    ∧ volumeInRange ((initialManagedState.setVolume (.finite 250)).volume) :=
  ⟨by decide, setVolume_clamps initialManagedState (.finite 250) (by decide)⟩

/-! ## C1 — server/state and group/update handling -/

/-- C1: the message handler's `server/state` and `group/update` cases
are empty, so receiving either message leaves the entire client state —
in particular the cached `server_state` and `group_state` — unchanged;
the diff-merge the spec prescribes (implemented by the never-called
`updateServerState`) would have changed the empty cache at the concrete
payload `{metadata: {title: "x"}}`. -/
theorem serverState_message_ignored :
    (∀ (c : Client) (payload : JObject),
        handleServerMessage (.serverState payload) c = c
        ∧ handleServerMessage (.groupUpdate payload) c = c)
    ∧ (initialManagedState.updateServerState demoServerStatePayload).serverState
        = applyDiff .nil demoServerStatePayload
    ∧ lookupPath (applyDiff .nil demoServerStatePayload) ["metadata", "title"]
        = some (.str "x") := by
  exact ⟨fun c payload => ⟨rfl, rfl⟩, rfl, rfl⟩

/-! ## C9 — stream/start as a format update -/

/-- C9: a `stream/start` that arrives while a format is already current
only replaces the stored format and marks the player as playing; the
stream generation, the frame queue, the scheduled sources and all
scheduler anchors are untouched. -/
theorem streamStart_format_update (c : Client) (payload : StreamFormat)
    (hfmt : c.sm.currentStreamFormat.isSome = true) :
    handleStreamStart payload c =
      { c with sm := { c.sm with currentStreamFormat := some payload,
                                 isPlaying := true } }
    ∧ (handleStreamStart payload c).sm.streamGeneration = c.sm.streamGeneration
    ∧ (handleStreamStart payload c).audio = c.audio := by
  have h : handleStreamStart payload c =
      { c with sm := { c.sm with currentStreamFormat := some payload,
                                 isPlaying := true } } := by
    simp [handleStreamStart, hfmt]
  exact ⟨h, by rw [h], by rw [h]⟩

/-- Witness for C9: a client mid-stream receives a format update; its
scheduler state (queue, sources, anchors) is unchanged. -/
theorem streamStart_format_update_witness :
    (demoClient.sm.currentStreamFormat.isSome = true)
    ∧ (handleStreamStart demoFormatFlac demoClient).audio = demoClient.audio :=
  ⟨by decide, (streamStart_format_update demoClient demoFormatFlac (by decide)).2.2⟩

/-! ## Lemmas on the queue sort and the scheduling loop -/

theorem mem_insertChunk (x : AudioBufferQueueItem) :
    ∀ (l : List AudioBufferQueueItem) (c : AudioBufferQueueItem),
      c ∈ insertChunk x l ↔ c = x ∨ c ∈ l
  | [], c => by simp [insertChunk]
  | d :: rest, c => by
      by_cases h : d.serverTime < x.serverTime
      · simp only [insertChunk, if_pos h, List.mem_cons, mem_insertChunk x rest c]
        tauto
      · simp [insertChunk, if_neg h]

theorem insertChunk_perm (x : AudioBufferQueueItem) :
    ∀ (l : List AudioBufferQueueItem), (insertChunk x l).Perm (x :: l)
  | [] => by simp [insertChunk]
  | d :: rest => by
      by_cases h : d.serverTime < x.serverTime
      · rw [insertChunk, if_pos h]
        exact ((insertChunk_perm x rest).cons d).trans (List.Perm.swap x d rest)
      · rw [insertChunk, if_neg h]

theorem sortQueue_perm :
    ∀ (l : List AudioBufferQueueItem), (sortQueue l).Perm l
  | [] => List.Perm.refl []
  | c :: rest =>
      (insertChunk_perm c (sortQueue rest)).trans ((sortQueue_perm rest).cons c)

theorem mem_sortQueue (l : List AudioBufferQueueItem) (c : AudioBufferQueueItem) :
    c ∈ sortQueue l ↔ c ∈ l :=
  (sortQueue_perm l).mem_iff

theorem decideBranch_queue_unchanged (env : PassEnv) (st : SchedState)
    (chunk : AudioBufferQueueItem) :
    (decideBranch env st chunk).st.audioBufferQueue = st.audioBufferQueue := by
  simp only [decideBranch]
  split_ifs <;> rfl

theorem decideBranch_branch_cases (env : PassEnv) (st : SchedState)
    (chunk : AudioBufferQueueItem) :
    decideBranch env st chunk = branchAnchorFree env st chunk
    ∨ decideBranch env st chunk = branchGapResync env st chunk
    ∨ decideBranch env st chunk
        = branchFilterWait st (targetPlaybackTimeOf env chunk) chunk
    ∨ decideBranch env st chunk
        = branchErrorResync env st (targetPlaybackTimeOf env chunk) chunk
    ∨ decideBranch env st chunk
        = branchDeadband st (targetPlaybackTimeOf env chunk) chunk
    ∨ decideBranch env st chunk
        = branchSampleAdjust st (targetPlaybackTimeOf env chunk) chunk
    ∨ decideBranch env st chunk
        = branchRateAdjust (CORRECTION_THRESHOLDS env.correctionMode) st
            (targetPlaybackTimeOf env chunk) chunk := by
  simp only [decideBranch]
  split_ifs <;> tauto

theorem passStep_queue_unchanged (env : PassEnv) (st : SchedState)
    (chunk : AudioBufferQueueItem) :
    (passStep env st chunk).1.audioBufferQueue = st.audioBufferQueue := by
  rw [passStep]
  split_ifs <;> simp [decideBranch_queue_unchanged]

theorem runPass_queue_unchanged (env : PassEnv) :
    ∀ (l : List AudioBufferQueueItem) (st : SchedState),
      (runPass env st l).1.audioBufferQueue = st.audioBufferQueue
  | [], st => rfl
  | chunk :: rest, st => by
      rw [runPass]
      simpa [runPass_queue_unchanged env rest] using
        passStep_queue_unchanged env st chunk

theorem passStep_chunkOf (env : PassEnv) (st : SchedState)
    (chunk : AudioBufferQueueItem) :
    (passStep env st chunk).2.chunkOf = chunk := by
  rw [passStep]
  split_ifs <;> rfl

theorem runPass_chunks (env : PassEnv) :
    ∀ (l : List AudioBufferQueueItem) (st : SchedState),
      (runPass env st l).2.map PassEvent.chunkOf = l
  | [], st => rfl
  | chunk :: rest, st => by
      rw [runPass]
      simp [runPass_chunks env rest, passStep_chunkOf env st chunk]

/-! ## C4 — generation isolation -/

/-- C4: (a) every frame a scheduling pass consumes — in particular every
frame handed to the sink — carries the stream generation current at the
start of the pass, for every queue content and scheduler state; (b) a
frame whose decode completes after a generation bump (captured
generation no longer current) is discarded before enqueueing. -/
theorem generation_isolation :
    (∀ (env : PassEnv) (st : SchedState) (ev : PassEvent),
        ev ∈ (processAudioQueue env st).2 →
        ev.chunkOf.generation = env.currentGeneration)
    ∧ (∀ (capturedGeneration currentGeneration : Nat)
        (queue : List AudioBufferQueueItem) (buffer : AudioBuffer)
        (serverTimeUs : ℚ), capturedGeneration ≠ currentGeneration →
        enqueueDecodedChunk capturedGeneration currentGeneration queue
          buffer serverTimeUs = queue) := by
  constructor
  · intro env st ev hev
    rw [processAudioQueue] at hev
    by_cases hsync : env.timeFilterSynchronized
    · rw [if_pos hsync] at hev
      have hmem : ev.chunkOf ∈
          (runPass env { st with audioBufferQueue := [] }
            (sortQueue (st.audioBufferQueue.filter
              (fun c => c.generation == env.currentGeneration)))).2.map
            PassEvent.chunkOf :=
        List.mem_map_of_mem PassEvent.chunkOf hev
      rw [runPass_chunks] at hmem
      rw [mem_sortQueue] at hmem
      have := List.of_mem_filter hmem
      simpa using this
    · rw [if_neg hsync] at hev
      exact absurd hev (List.not_mem_nil ev)
  · intro capturedGeneration currentGeneration queue buffer serverTimeUs hne
    rw [enqueueDecodedChunk, if_pos hne]

/-- Witness for C4 at concrete inputs: the one event of a pass over a
mixed queue carries the current generation, and a decode that finished
after a bump (captured 0, current 1) enqueues nothing. -/
theorem generation_isolation_witness :
    ((processAudioQueue idEnv mixedQueueState).2.head?.all
        (fun ev => ev.chunkOf.generation == idEnv.currentGeneration))
    ∧ enqueueDecodedChunk 0 1 [] flatBuffer 5 = [] := by
  constructor
  · decide
  · exact generation_isolation.2 0 1 [] flatBuffer 5 (by decide)

/-! ## C5 — filter not synchronized: hold everything -/

/-- C5: if the time filter is not synchronized when a pass runs, the
pass hands nothing to the sink and keeps every current-generation frame
queued; the only state change is the queue itself being filtered of
stale generations and sorted. -/
theorem unsynchronized_pass_holds (env : PassEnv) (st : SchedState)
    (hsync : env.timeFilterSynchronized = false) :
    (processAudioQueue env st).2 = []
    ∧ (processAudioQueue env st).1 =
        { st with audioBufferQueue := sortQueue (st.audioBufferQueue.filter
            (fun c => c.generation == env.currentGeneration)) }
    ∧ (∀ c ∈ st.audioBufferQueue, c.generation = env.currentGeneration →
        c ∈ (processAudioQueue env st).1.audioBufferQueue) := by
  have hproc : processAudioQueue env st =
      ({ st with audioBufferQueue := sortQueue (st.audioBufferQueue.filter
          (fun c => c.generation == env.currentGeneration)) }, []) := by
    rw [processAudioQueue, hsync]
    simp
  refine ⟨by rw [hproc], by rw [hproc], ?_⟩
  intro c hc hgen
  rw [hproc]
  simp only [mem_sortQueue, List.mem_filter]
  exact ⟨hc, by simpa using hgen⟩

/-- Witness for C5: with the filter unsynchronized, the pass over the
mixed queue hands nothing to the sink and the current-generation chunk
stays queued. -/
theorem unsynchronized_pass_holds_witness :
    (({ idEnv with timeFilterSynchronized := false } : PassEnv).timeFilterSynchronized
        = false)
    ∧ (processAudioQueue { idEnv with timeFilterSynchronized := false }
        mixedQueueState).2 = [] :=
  ⟨by decide,
    (unsynchronized_pass_holds { idEnv with timeFilterSynchronized := false }
      mixedQueueState (by decide)).1⟩

/-! ## C10 — a synchronized pass drains the queue -/

/-- C10: with the sink initialized and the filter synchronized, the pass
drains the queue completely: afterwards the frame queue is empty, and
the events (one `source.start` hand-off or one late drop per frame, in
order) consume exactly the sorted current-generation queue — so every
frame queued with the current generation is handed to the sink exactly
once or dropped as late, and stale frames are discarded. -/
theorem synchronized_pass_drains (env : PassEnv) (st : SchedState)
    (hsync : env.timeFilterSynchronized = true) :
    (processAudioQueue env st).1.audioBufferQueue = []
    ∧ (processAudioQueue env st).2.map PassEvent.chunkOf
        = sortQueue (st.audioBufferQueue.filter
            (fun c => c.generation == env.currentGeneration))
    ∧ ((processAudioQueue env st).2.map PassEvent.chunkOf).Perm
        (st.audioBufferQueue.filter
          (fun c => c.generation == env.currentGeneration)) := by
  rw [processAudioQueue, hsync]
  simp only [if_true]
  refine ⟨runPass_queue_unchanged env _ _, runPass_chunks env _ _, ?_⟩
  rw [runPass_chunks env _ _]
  exact sortQueue_perm _

/-- Witness for C10: the synchronized pass over the mixed queue empties
it and consumes exactly the current-generation chunk. -/
theorem synchronized_pass_drains_witness :
    (idEnv.timeFilterSynchronized = true)
    ∧ (processAudioQueue idEnv mixedQueueState).1.audioBufferQueue = []
    ∧ (processAudioQueue idEnv mixedQueueState).2.map PassEvent.chunkOf
        = [chunkA] := by
  refine ⟨by decide, (synchronized_pass_drains idEnv mixedQueueState (by decide)).1, ?_⟩
  have h := (synchronized_pass_drains idEnv mixedQueueState (by decide)).2.1
  rw [h]
  decide

/-! ## C6 — late frames are dropped and reset the anchor -/

/-- C6: when the schedule time computed for a frame lies before the
sink's current time, the frame is dropped (never handed to the sink),
both anchors are reset to zero (`nextPlaybackTime` and
`lastScheduledServerTime`), and the loop continues with the remaining
queued frames from the post-drop state. -/
theorem late_frame_dropped (env : PassEnv) (st : SchedState)
    (chunk : AudioBufferQueueItem) (rest : List AudioBufferQueueItem)
    (hlate : (decideBranch env st chunk).playbackTime < env.audioContextTime) :
    (passStep env st chunk).2 = .droppedLate chunk
    ∧ (passStep env st chunk).1.nextPlaybackTime = 0
    ∧ (passStep env st chunk).1.lastScheduledServerTime = 0
    ∧ (runPass env st (chunk :: rest)).2
        = .droppedLate chunk :: (runPass env (passStep env st chunk).1 rest).2
    ∧ (runPass env st (chunk :: rest)).1
        = (runPass env (passStep env st chunk).1 rest).1 := by
  refine ⟨?_, ?_, ?_, ?_, ?_⟩ <;> simp [runPass, passStep, hlate]

/-- Witness for C6: a chunk one second in the past against a sink clock
at 10 s is dropped and resets both anchors. -/
theorem late_frame_dropped_witness :
    ((decideBranch lateEnv initialSchedState lateChunk).playbackTime
        < lateEnv.audioContextTime)
    ∧ (passStep lateEnv initialSchedState lateChunk).2 = .droppedLate lateChunk
    ∧ (passStep lateEnv initialSchedState lateChunk).1.nextPlaybackTime = 0 := by
  refine ⟨by decide, ?_, ?_⟩
  · exact (late_frame_dropped lateEnv initialSchedState lateChunk [] (by decide)).1
  · exact (late_frame_dropped lateEnv initialSchedState lateChunk [] (by decide)).2.1

/-! ## Lemmas on sample adjustment and the branch decision -/

theorem insertOneSample_length (l : List ℚ) (h : 2 ≤ l.length) :
    (insertOneSample l).length = l.length + 1 := by
  match l with
  | [] => simp at h
  | [a] => simp at h
  | a :: b :: rest => simp [insertOneSample]

theorem deleteOneSample_length : ∀ (l : List ℚ), 2 ≤ l.length →
    (deleteOneSample l).length = l.length - 1
  | [], h => by simp at h
  | [a], h => by simp at h
  | [a, b], _ => by simp [deleteOneSample]
  | a :: b :: c :: rest, _ => by
      have ih := deleteOneSample_length (b :: c :: rest) (by simp)
      simp only [deleteOneSample, List.length_cons] at ih ⊢
      omega

theorem adjustBufferSamples_frameCount_insert (b : AudioBuffer)
    (h : 2 ≤ b.frameCount) :
    (adjustBufferSamples b 1).frameCount = b.frameCount + 1 := by
  rw [adjustBufferSamples, if_neg (by omega), if_pos (by omega)]
  match b with
  | ⟨[], _⟩ => simp [AudioBuffer.frameCount] at h
  | ⟨ch :: tl, _⟩ =>
      have hc : 2 ≤ ch.length := h
      simp only [AudioBuffer.frameCount, List.map_cons, List.headD_cons]
      exact insertOneSample_length ch hc

theorem adjustBufferSamples_frameCount_delete (b : AudioBuffer)
    (h : 2 ≤ b.frameCount) :
    (adjustBufferSamples b (-1)).frameCount = b.frameCount - 1 := by
  rw [adjustBufferSamples, if_neg (by omega), if_neg (by omega)]
  match b with
  | ⟨[], _⟩ => simp [AudioBuffer.frameCount] at h
  | ⟨ch :: tl, _⟩ =>
      have hc : 2 ≤ ch.length := h
      simp only [AudioBuffer.frameCount, List.map_cons, List.headD_cons]
      exact deleteOneSample_length ch hc

theorem adjustBufferSamples_sampleRate (b : AudioBuffer) (n : Int) :
    (adjustBufferSamples b n).sampleRate = b.sampleRate := by
  rw [adjustBufferSamples]
  split_ifs <;> rfl

theorem decideBranch_buffer_sampleRate (env : PassEnv) (st : SchedState)
    (chunk : AudioBufferQueueItem) :
    (decideBranch env st chunk).buffer.sampleRate = chunk.buffer.sampleRate := by
  rcases decideBranch_branch_cases env st chunk with h | h | h | h | h | h | h <;>
    rw [h] <;>
    simp [branchAnchorFree, branchGapResync, branchFilterWait, branchErrorResync,
      branchDeadband, branchSampleAdjust, branchRateAdjust, copyBuffer,
      adjustBufferSamples_sampleRate]

theorem ratePlaybackRate_pos (th : CorrectionThresholds) (smoothed : ℚ) :
    0 < ratePlaybackRate th smoothed := by
  rw [ratePlaybackRate]
  split_ifs <;> norm_num

theorem decideBranch_rate_pos (env : PassEnv) (st : SchedState)
    (chunk : AudioBufferQueueItem) :
    0 < (decideBranch env st chunk).playbackRate := by
  rcases decideBranch_branch_cases env st chunk with h | h | h | h | h | h | h <;>
    rw [h] <;>
    simp [branchAnchorFree, branchGapResync, branchFilterWait, branchErrorResync,
      branchDeadband, branchSampleAdjust, branchRateAdjust, ratePlaybackRate_pos]

theorem decideBranch_anchored (env : PassEnv) (st : SchedState)
    (chunk : AudioBufferQueueItem)
    (h : isAnchorScheduled (decideBranch env st chunk).branch = true) :
    (decideBranch env st chunk).playbackTime = st.nextPlaybackTime := by
  rcases decideBranch_branch_cases env st chunk with hb | hb | hb | hb | hb | hb | hb <;>
    rw [hb] at h ⊢ <;>
    first
      | rfl
      | simp [branchAnchorFree, branchGapResync, branchErrorResync,
          isAnchorScheduled] at h

theorem AudioBuffer.duration_nonneg (b : AudioBuffer) (h : 0 < b.sampleRate) :
    0 ≤ b.duration :=
  div_nonneg (Nat.cast_nonneg _) h.le

theorem passStep_dropped_eq (env : PassEnv) (st : SchedState)
    (chunk : AudioBufferQueueItem)
    (hl : (decideBranch env st chunk).playbackTime < env.audioContextTime) :
    (passStep env st chunk).2 = .droppedLate chunk := by
  simp [passStep, hl]

theorem passStep_scheduled_eq (env : PassEnv) (st : SchedState)
    (chunk : AudioBufferQueueItem)
    (hnl : ¬ (decideBranch env st chunk).playbackTime < env.audioContextTime) :
    (passStep env st chunk).2 =
      .scheduled chunk (decideBranch env st chunk).branch
        (decideBranch env st chunk).buffer
        (decideBranch env st chunk).playbackTime
        (decideBranch env st chunk).playbackRate
    ∧ (passStep env st chunk).1.nextPlaybackTime =
        (decideBranch env st chunk).playbackTime
          + (decideBranch env st chunk).buffer.duration
            / (decideBranch env st chunk).playbackRate := by
  simp only [passStep]
  rw [if_neg hnl]
  exact ⟨rfl, rfl⟩

theorem passStep_headConsistent (env : PassEnv) (st : SchedState)
    (chunk : AudioBufferQueueItem) :
    headConsistent st (passStep env st chunk).2 := by
  by_cases hl : (decideBranch env st chunk).playbackTime < env.audioContextTime
  · rw [passStep_dropped_eq env st chunk hl]
    exact trivial
  · rw [(passStep_scheduled_eq env st chunk hl).1]
    exact fun hanch => decideBranch_anchored env st chunk hanch

theorem passStep_next_ge (env : PassEnv) (st : SchedState)
    (chunk : AudioBufferQueueItem) (hsr : 0 < chunk.buffer.sampleRate)
    {ch : AudioBufferQueueItem} {br : ScheduleBranch} {buf : AudioBuffer}
    {p r : ℚ} (hev : (passStep env st chunk).2 = .scheduled ch br buf p r) :
    p ≤ (passStep env st chunk).1.nextPlaybackTime := by
  by_cases hl : (decideBranch env st chunk).playbackTime < env.audioContextTime
  · rw [passStep_dropped_eq env st chunk hl] at hev
    exact absurd hev (by simp)
  · have h2 := passStep_scheduled_eq env st chunk hl
    rw [h2.1, PassEvent.scheduled.injEq] at hev
    obtain ⟨-, -, -, hp, -⟩ := hev
    rw [h2.2, ← hp]
    have hdur : 0 ≤ (decideBranch env st chunk).buffer.duration := by
      apply AudioBuffer.duration_nonneg
      rw [decideBranch_buffer_sampleRate env st chunk]
      exact hsr
    have hrate : 0 < (decideBranch env st chunk).playbackRate :=
      decideBranch_rate_pos env st chunk
    have : 0 ≤ (decideBranch env st chunk).buffer.duration
        / (decideBranch env st chunk).playbackRate :=
      div_nonneg hdur hrate.le
    linarith

theorem runPass_chain (env : PassEnv) :
    ∀ (l : List AudioBufferQueueItem) (st : SchedState),
      (∀ c ∈ l, 0 < c.buffer.sampleRate) →
      List.Chain' backToBackOrdered (runPass env st l).2
      ∧ (∀ ev ∈ (runPass env st l).2.head?, headConsistent st ev)
  | [], st, _ => ⟨List.chain'_nil, by simp [runPass]⟩
  | c :: rest, st, hsr => by
      have hs : 0 < c.buffer.sampleRate := hsr c (List.mem_cons_self c rest)
      have hrest : ∀ x ∈ rest, 0 < x.buffer.sampleRate :=
        fun x hx => hsr x (List.mem_cons_of_mem c hx)
      have ih := runPass_chain env rest (passStep env st c).1 hrest
      have hevents : (runPass env st (c :: rest)).2
          = (passStep env st c).2 :: (runPass env (passStep env st c).1 rest).2 := by
        simp only [runPass]
      constructor
      · rw [hevents, List.chain'_cons']
        refine ⟨?_, ih.1⟩
        intro ev2 hev2
        have hcons := ih.2 ev2 hev2
        cases hev1 : (passStep env st c).2 with
        | droppedLate ch => simp [backToBackOrdered]
        | scheduled ch br buf p r =>
            cases ev2 with
            | droppedLate ch2 => simp [backToBackOrdered]
            | scheduled ch2 br2 buf2 p2 r2 =>
                simp only [backToBackOrdered]
                intro hanch
                have hp2 : p2 = (passStep env st c).1.nextPlaybackTime :=
                  hcons hanch
                rw [hp2]
                exact passStep_next_ge env st c hs hev1
      · rw [hevents]
        intro ev hev
        simp only [List.head?, Option.mem_def, Option.some.injEq] at hev
        rw [← hev]
        exact passStep_headConsistent env st c

/-! ## C3 — monotone schedule within a pass -/

/-- C3 counterexample: a pass over two contiguous frames in which the
first is scheduled back-to-back at the inherited anchor (100 s, in the
deadband) and the second triggers a tier-4 hard resync to its absolute
target (1.2 s): the sink receives `source.start(100)` followed by
`source.start(1.2)`, a strictly decreasing sequence.  So schedule times
are not non-decreasing in passes containing a hard resync. -/
theorem schedule_monotone_counterexample :
    scheduledTimes (processAudioQueue idEnv resyncState).2 = [100, 6 / 5]
    ∧ scheduledBranches (processAudioQueue idEnv resyncState).2
        = [.deadband, .errorResync]
    ∧ ¬ ((100 : ℚ) ≤ 6 / 5) := by
  refine ⟨by decide, by decide, by decide⟩

/-- C3 (amended): within a single scheduling pass, every frame that is
scheduled back-to-back (handed to the sink at `next_playback_time`,
i.e. tiers 0-3 of the contiguous case) starts no earlier than the event
handed immediately before it; frames scheduled from their absolute
drift-corrected target (no-anchor case, gap resync, tier-4 hard resync)
may start earlier than previously handed frames, so the full
`schedule_at` sequence need not be non-decreasing.  Sample rates are
positive for any real audio buffer. -/
theorem pass_back_to_back_monotone (env : PassEnv) (st : SchedState)
    (hsr : ∀ c ∈ st.audioBufferQueue, 0 < c.buffer.sampleRate) :
    List.Chain' backToBackOrdered (processAudioQueue env st).2 := by
  rw [processAudioQueue]
  by_cases hsync : env.timeFilterSynchronized
  · rw [if_pos hsync]
    apply (runPass_chain env _ _ ?_).1
    intro c hc
    exact hsr c (List.mem_of_mem_filter ((mem_sortQueue _ _).mp hc))
  · rw [if_neg hsync]
    exact List.chain'_nil

/-- Witness for the amended C3: the pass over the mixed queue (all
sample rates positive) produces back-to-back-ordered events. -/
theorem pass_back_to_back_monotone_witness :
    (∀ c ∈ mixedQueueState.audioBufferQueue, 0 < c.buffer.sampleRate)
    ∧ List.Chain' backToBackOrdered (processAudioQueue idEnv mixedQueueState).2 :=
  ⟨by decide, pass_back_to_back_monotone idEnv mixedQueueState (by decide)⟩

/-! ## C2 — correction tiers of the default sync mode -/

/-- C2: in sync mode, for a contiguous frame (both anchors set, server
gap under 100 ms) with the time filter trusted (filter error at most
15 ms) and the anchor not in the past, the correction tier is chosen
from the updated smoothed sync error `e` exactly as the table states:
with 1 ms ≤ |e| < 8 ms the frame is handed to the sink at
`next_playback_time` with rate 1 and exactly one interpolated sample
inserted (renderer ahead, e < 0) or deleted (renderer behind, e > 0) —
the frame count changes by exactly one for any frame of at least two
samples; with 8 ms ≤ |e| < 200 ms the frame is handed at
`next_playback_time` with playback rate 1 ± 0.01 when |e| < 35 ms and
1 ± 0.02 when |e| ≥ 35 ms, the sign correcting toward the target. -/
theorem sync_mode_correction_tiers (env : PassEnv) (st : SchedState)
    (chunk : AudioBufferQueueItem) (e : ℚ)
    (hmode : env.correctionMode = .sync)
    (hanchor : ¬ (st.nextPlaybackTime = 0 ∨ st.lastScheduledServerTime = 0))
    (hgap : jsAbs ((chunk.serverTime - st.lastScheduledServerTime) / 1000000)
        < 1 / 10)
    (hfilter : env.timeFilterErrorUs / 1000 ≤ 15)
    (hnotlate : ¬ st.nextPlaybackTime < env.audioContextTime)
    (he : e = smoothedErrorOf st (targetPlaybackTimeOf env chunk)) :
    ((1 ≤ jsAbs e ∧ jsAbs e < 8) →
      (passStep env st chunk).2 =
        .scheduled chunk .sampleAdjust
          (adjustBufferSamples chunk.buffer (samplesToAdjustOf e))
          st.nextPlaybackTime 1
      ∧ samplesToAdjustOf e = (if 0 < e then -1 else 1)
      ∧ (2 ≤ chunk.buffer.frameCount →
          ((adjustBufferSamples chunk.buffer (samplesToAdjustOf e)).frameCount : Int)
            = (chunk.buffer.frameCount : Int) + samplesToAdjustOf e))
    ∧ ((8 ≤ jsAbs e ∧ jsAbs e < 200) →
      (passStep env st chunk).2 =
        .scheduled chunk .rateAdjust (copyBuffer chunk.buffer)
          st.nextPlaybackTime (ratePlaybackRate (CORRECTION_THRESHOLDS .sync) e)
      ∧ ratePlaybackRate (CORRECTION_THRESHOLDS .sync) e
          = 1 + (if 0 < e then 1 else -1)
              * (if 35 ≤ jsAbs e then 2 / 100 else 1 / 100)) := by
  subst he
  have hfilterNot : ¬ ((15 : ℚ) < env.timeFilterErrorUs / 1000) :=
    not_lt.mpr hfilter
  constructor
  · rintro ⟨h1, h8⟩
    have hdec : decideBranch env st chunk
        = branchSampleAdjust st (targetPlaybackTimeOf env chunk) chunk := by
      simp only [decideBranch, hmode, CORRECTION_THRESHOLDS]
      rw [if_neg hanchor, if_pos hgap, if_neg hfilterNot,
        if_neg (not_lt.mpr (by linarith)), if_neg (not_lt.mpr h1), if_pos h8]
    have hnl : ¬ (decideBranch env st chunk).playbackTime
        < env.audioContextTime := by
      rw [hdec]; exact hnotlate
    have hev := (passStep_scheduled_eq env st chunk hnl).1
    rw [hdec] at hev
    refine ⟨by simpa [branchSampleAdjust] using hev, rfl, ?_⟩
    intro hlen
    by_cases hpos : 0 < smoothedErrorOf st (targetPlaybackTimeOf env chunk)
    · rw [show samplesToAdjustOf (smoothedErrorOf st (targetPlaybackTimeOf env chunk))
          = -1 from by simp [samplesToAdjustOf, hpos]]
      rw [adjustBufferSamples_frameCount_delete chunk.buffer hlen]
      push_cast [Nat.cast_sub (by omega : 1 ≤ chunk.buffer.frameCount)]
      ring
    · rw [show samplesToAdjustOf (smoothedErrorOf st (targetPlaybackTimeOf env chunk))
          = 1 from by simp [samplesToAdjustOf, hpos]]
      rw [adjustBufferSamples_frameCount_insert chunk.buffer hlen]
      push_cast
      ring
  · rintro ⟨h8, h200⟩
    have hdec : decideBranch env st chunk
        = branchRateAdjust (CORRECTION_THRESHOLDS .sync) st
            (targetPlaybackTimeOf env chunk) chunk := by
      simp only [decideBranch, hmode, CORRECTION_THRESHOLDS]
      rw [if_neg hanchor, if_pos hgap, if_neg hfilterNot,
        if_neg (not_lt.mpr h200.le), if_neg (not_lt.mpr (by linarith)),
        if_neg (not_lt.mpr h8)]
    have hnl : ¬ (decideBranch env st chunk).playbackTime
        < env.audioContextTime := by
      rw [hdec]; exact hnotlate
    have hev := (passStep_scheduled_eq env st chunk hnl).1
    rw [hdec] at hev
    refine ⟨by simpa [branchRateAdjust] using hev, ?_⟩
    by_cases hpos : 0 < smoothedErrorOf st (targetPlaybackTimeOf env chunk) <;>
      by_cases h35 : (35 : ℚ)
          ≤ jsAbs (smoothedErrorOf st (targetPlaybackTimeOf env chunk)) <;>
      simp [ratePlaybackRate, atLeastThreshold, CORRECTION_THRESHOLDS,
        hpos, h35, h8] <;>
      norm_num

/-- Witness for C2 at a concrete input: a contiguous chunk whose updated
smoothed error is 4 ms lands in the single-sample tier — scheduled at
the 10 s anchor, rate 1, one sample deleted from its four-sample
buffer. -/
theorem sync_mode_correction_tiers_witness :
    ((4 : ℚ) = smoothedErrorOf samplesTierState
        (targetPlaybackTimeOf idEnv contiguousChunk))
    ∧ (passStep idEnv samplesTierState contiguousChunk).2 =
        .scheduled contiguousChunk .sampleAdjust
          (adjustBufferSamples contiguousChunk.buffer (samplesToAdjustOf 4))
          samplesTierState.nextPlaybackTime 1
    ∧ ((adjustBufferSamples contiguousChunk.buffer (samplesToAdjustOf 4)).frameCount
        : Int) = (contiguousChunk.buffer.frameCount : Int) + samplesToAdjustOf 4 := by
  have h := (sync_mode_correction_tiers idEnv samplesTierState contiguousChunk 4
    (by decide) (by decide) (by decide) (by decide) (by decide) (by decide)).1
    ⟨by decide, by decide⟩
  exact ⟨by decide, h.1, h.2.2 (by decide)⟩

end Sendspin
